import Mathlib

/-!
# Verification of the Tiki crawl engine (`take_tiki_data.py`)

Shallow embedding of the concurrent fetch-retry-checkpoint engine of the
repository.  The HTTP environment is modelled as a list of per-attempt
events (one event = the outcome of one request attempt); `fetch_product`
mirrors the retry loop of the source line by line, the checkpoint
resolver mirrors the `done_batches` / `start_batch` computation in
`main`, and the failure sink mirrors the append-only CSV flush.
-/

namespace TikiCrawl

/-- `MAX_CONCURRENCY = 100` from the source. -/
def MAX_CONCURRENCY : Nat := 100

/-- `MAX_RETRIES = 3` from the source. -/
def MAX_RETRIES : Nat := 3

/-- `BATCH_SIZE = 1000` from the source. -/
def BATCH_SIZE : Nat := 1000

/-- The JSON body of a product response, restricted to the fields the
source consumes via `data.get(...)`.  Each field is optional, mirroring
`dict.get` returning `None` when a key is absent. -/
structure ProductBody where
  id : Option Int
  name : Option String
  url_key : Option String
  price : Option Int
  description : Option String
  thumbnail_url : Option String
deriving DecidableEq, Repr

/-- The record the source builds from a 200 response (lines 78-85).
`description` is always a string: the source computes
`BeautifulSoup(data.get("description", ""), ...).get_text(...).strip()`,
never `None`. -/
structure ProductRecord where
  id : Option Int
  name : Option String
  url_key : Option String
  price : Option Int
  description : String
  image_url : Option String
deriving DecidableEq, Repr

/-- The outcome of one request attempt, as seen by the retry loop:
either a response with a status code and (possibly irrelevant) body,
an `asyncio.TimeoutError`, or any other exception. -/
inductive AttemptEvent
  | response (status : Nat) (body : ProductBody)
  | timeout
  | exc
deriving DecidableEq, Repr

/-- The second component of an entry of `failed_ids`.  The source
appends `(pid, 404)`, `(pid, resp.status)`, `(pid, "Exception")` or
`(pid, "Failed")`. -/
inductive FailReason
  | httpStatus (code : Nat)
  | exception
  | failed
deriving DecidableEq, Repr

/-- A row of `failed_ids` / of the failure CSV body: `(pid, reason)`. -/
abbrev FailureRecord := String × FailReason

/-- The record built at line 78-85 of the source from a 200 body:
every field is `data.get(...)` except `description`, which is the
markup-stripping transform applied to `data.get("description", "")`.
The transform (`BeautifulSoup(...).get_text(separator="\n").strip()`)
is an external collaborator and is passed in as `strip`. -/
def mkRecord (strip : String → String) (body : ProductBody) : ProductRecord :=
  { id := body.id
    name := body.name
    url_key := body.url_key
    price := body.price
    description := strip (body.description.getD "")
    image_url := body.thumbnail_url }

/-- The retry loop of `fetch_product` (source lines 51-97).
`attempt` is the loop counter starting at 1; the loop runs while
`attempt ≤ maxRetries`.  The environment supplies one `AttemptEvent`
per attempt.  Returns the value `fetch_product` returns (`None` or a
product record) together with the list of entries it appends to
`failed_ids`.  Branches, in source order: 429 → continue with the next
attempt; 404 → terminal `(pid, 404)`; status ≠ 200 → terminal
`(pid, status)`; 200 → success; timeout → continue; any other
exception → terminal `(pid, "Exception")`; loop exhausted → terminal
`(pid, "Failed")`. -/
def fetch_loop (strip : String → String) (pid : String) (maxRetries : Nat)
    (attempt : Nat) : List AttemptEvent → Option ProductRecord × List FailureRecord
  | [] => (none, [(pid, FailReason.failed)])
  | e :: rest =>
    if maxRetries < attempt then (none, [(pid, FailReason.failed)])
    else
      match e with
      | AttemptEvent.timeout => fetch_loop strip pid maxRetries (attempt + 1) rest
      | AttemptEvent.exc => (none, [(pid, FailReason.exception)])
      | AttemptEvent.response status body =>
        if status = 429 then fetch_loop strip pid maxRetries (attempt + 1) rest
        else if status = 404 then (none, [(pid, FailReason.httpStatus 404)])
        else if status ≠ 200 then (none, [(pid, FailReason.httpStatus status)])
        else (some (mkRecord strip body), [])

/-- `fetch_product(session, pid)`: run the retry loop from attempt 1. -/
def fetch_product (strip : String → String) (pid : String) (maxRetries : Nat)
    (events : List AttemptEvent) : Option ProductRecord × List FailureRecord :=
  fetch_loop strip pid maxRetries 1 events

/-- An attempt outcome on which the source `continue`s the loop
(rather than returning): HTTP 429 and network timeout. -/
def retryable : AttemptEvent → Bool
  | AttemptEvent.response status _ => status = 429
  | AttemptEvent.timeout => true
  | AttemptEvent.exc => false

/-! ## Checkpoint resolver (source lines 108-121) -/

/-- `start_batch = max(done_batches) + 1 if done_batches else 1`
(source line 113), over the set of batch indices parsed from existing
artifact file names. -/
def start_batch (done : List Nat) : Nat :=
  if done.isEmpty then 1 else done.foldl max 0 + 1

/-- `total_batches = (len(ids) + BATCH_SIZE - 1) // BATCH_SIZE`
(source line 117). -/
def total_batches (numIds : Nat) : Nat := (numIds + BATCH_SIZE - 1) / BATCH_SIZE

/-- The batch indices the run iterates over:
`range(start_batch, total_batches + 1)` (source line 118). -/
def processed_batches (startB totalB : Nat) : List Nat :=
  List.range' startB (totalB + 1 - startB)

/-! ## Failure sink (source lines 142-153) -/

/-- A row of the failure CSV: the header row `id,error` or one data
row.  (Modelled as a tagged row; the source distinguishes them by
writing the header through `header=write_header`.) -/
inductive CsvRow
  | header
  | data (id : String) (err : FailReason)
deriving DecidableEq, Repr

/-- One flush of `failed_ids` to `FAILED_FILE` (source lines 142-153):
nothing happens when `failed_ids` is empty (`if failed_ids:`);
otherwise rows are appended (`mode='a'`), with the header written
exactly when the file does not exist or is empty
(`write_header = not file_exists or os.path.getsize(...) == 0`).
A nonexistent file and an empty file are both modelled as `[]`. -/
def flush_failed (file : List CsvRow) (records : List FailureRecord) : List CsvRow :=
  if records.isEmpty then file
  else
    file ++ (if file.isEmpty then [CsvRow.header] else [])
      ++ records.map (fun r => CsvRow.data r.1 r.2)

/-- Iterated flushes: one per batch within a run, continued across
restarts (the file persists between runs). -/
def flush_all (file : List CsvRow) (batches : List (List FailureRecord)) : List CsvRow :=
  batches.foldl flush_failed file

/-- Number of header rows in the failure file. -/
def header_count (file : List CsvRow) : Nat :=
  file.countP (fun r => match r with | CsvRow.header => true | _ => false)

/-! ## Batch collection (source lines 124-129) -/

/-- Collecting the outcomes of one batch: every id is dispatched to
`fetch_product`; non-`None` results are gathered into `results`, and
the `failed_ids` appends accumulate.  The environment `env` gives each
id its per-attempt events. -/
def process_batch (strip : String → String) (env : String → List AttemptEvent)
    (maxRetries : Nat) : List String → List ProductRecord × List FailureRecord
  | [] => ([], [])
  | pid :: rest =>
    let acc := process_batch strip env maxRetries rest
    match fetch_product strip pid maxRetries (env pid) with
    | (some r, fs) => (r :: acc.1, fs ++ acc.2)
    | (none, fs) => (acc.1, fs ++ acc.2)

/-! ## Event trace of one fetch (slot holding, sleeps) -/

/-- An observable event of `fetch_product`: acquiring / releasing the
semaphore slot, the politeness sleep, the request itself, and a backoff
sleep (with its duration in seconds). -/
inductive TraceEv
  | acquire
  | release
  | politeness
  | request
  | backoff (dur : Nat)
deriving DecidableEq, Repr

/-- The event trace of the retry loop, read directly off the source:
each attempt is `async with semaphore:` (acquire ... release) wrapping
the politeness sleep (line 54), the request (line 55) and its
classification, *including* the backoff sleeps: on 429 the loop sleeps
`5 * attempt` at line 60 and on timeout `2 * attempt` at line 89, both
inside the `async with semaphore` block, so release happens only when
the block is exited afterwards. -/
def fetch_trace (maxRetries attempt : Nat) : List AttemptEvent → List TraceEv
  | [] => []
  | e :: rest =>
    if maxRetries < attempt then []
    else
      TraceEv.acquire :: TraceEv.politeness :: TraceEv.request ::
      match e with
      | AttemptEvent.timeout =>
          TraceEv.backoff (2 * attempt) :: TraceEv.release ::
            fetch_trace maxRetries (attempt + 1) rest
      | AttemptEvent.exc => [TraceEv.release]
      | AttemptEvent.response status _ =>
        if status = 429 then
          TraceEv.backoff (5 * attempt) :: TraceEv.release ::
            fetch_trace maxRetries (attempt + 1) rest
        else [TraceEv.release]

/-- Does some backoff sleep occur while the slot is held?  `held`
tracks whether the task currently holds its semaphore slot. -/
def backoff_while_held (held : Bool) : List TraceEv → Bool
  | [] => false
  | TraceEv.acquire :: r => backoff_while_held true r
  | TraceEv.release :: r => backoff_while_held false r
  | TraceEv.backoff _ :: r => held || backoff_while_held held r
  | _ :: r => backoff_while_held held r

/-- Does every backoff sleep occur while the slot is held? -/
def all_backoff_held (held : Bool) : List TraceEv → Bool
  | [] => true
  | TraceEv.acquire :: r => all_backoff_held true r
  | TraceEv.release :: r => all_backoff_held false r
  | TraceEv.backoff _ :: r => held && all_backoff_held held r
  | _ :: r => all_backoff_held held r

/-- Acquires and releases alternate correctly: the slot is never
acquired twice without an intervening release and never released when
not held, and the trace ends with the slot not held. -/
def well_bracketed (held : Bool) : List TraceEv → Bool
  | [] => !held
  | TraceEv.acquire :: r => !held && well_bracketed true r
  | TraceEv.release :: r => held && well_bracketed false r
  | _ :: r => well_bracketed held r

/-! ## Concurrency limiter (source lines 45, 52-55) -/

/-- The phase of one fetch task with respect to the semaphore:
`ready` (not holding a slot — before an attempt, or sleeping outside a
slot), `holding` (inside `async with semaphore` but not in the network
call), `requesting` (inside `session.get`, which the source places
inside the `async with semaphore` block), `finished`. -/
inductive Phase
  | ready
  | holding
  | requesting
  | finished
deriving DecidableEq, Repr

/-- The shared state: the semaphore's available-slot count and the
phase of every task. -/
structure SemState where
  sem : Nat
  tasks : List Phase
deriving DecidableEq, Repr

/-- Initial state: `asyncio.BoundedSemaphore(n)` with all `k` tasks
not yet holding a slot. -/
def initState (n k : Nat) : SemState :=
  { sem := n, tasks := List.replicate k Phase.ready }

/-- Interleaving semantics of the crawl under the semaphore: a task
may acquire a slot only when one is available (`0 < sem`), may issue
its network request only while holding a slot (the source's
`session.get` is inside `async with semaphore`), and releases the
slot at the end of the attempt block. -/
inductive SemStep : SemState → SemState → Prop
  | acquire (s : SemState) (i : Nat) (h : s.tasks.get? i = some Phase.ready)
      (hs : 0 < s.sem) :
      SemStep s ⟨s.sem - 1, s.tasks.set i Phase.holding⟩
  | startReq (s : SemState) (i : Nat) (h : s.tasks.get? i = some Phase.holding) :
      SemStep s ⟨s.sem, s.tasks.set i Phase.requesting⟩
  | endReq (s : SemState) (i : Nat) (h : s.tasks.get? i = some Phase.requesting) :
      SemStep s ⟨s.sem, s.tasks.set i Phase.holding⟩
  | release (s : SemState) (i : Nat) (h : s.tasks.get? i = some Phase.holding) :
      SemStep s ⟨s.sem + 1, s.tasks.set i Phase.ready⟩
  | finish (s : SemState) (i : Nat) (h : s.tasks.get? i = some Phase.ready) :
      SemStep s ⟨s.sem, s.tasks.set i Phase.finished⟩

/-- Reachability from the initial state. -/
def Reachable (n k : Nat) (s : SemState) : Prop :=
  Relation.ReflTransGen SemStep (initState n k) s

/-- A task holds a slot in phases `holding` and `requesting`. -/
def busy : Phase → Bool
  | Phase.holding => true
  | Phase.requesting => true
  | _ => false

/-- Number of tasks currently executing their network request. -/
def requesting_count (tasks : List Phase) : Nat :=
  tasks.countP (fun ph => ph = Phase.requesting)

/-- Number of tasks currently holding a semaphore slot. -/
def busy_count (tasks : List Phase) : Nat :=
  tasks.countP busy

/-! ## Lemmas about the retry loop -/

/-- Once the attempt counter has passed `maxRetries`, the loop exits
with the generic `Failed` record. -/
theorem fetch_loop_past (strip : String → String) (pid : String) (m a : Nat)
    (events : List AttemptEvent) (h : m < a) :
    fetch_loop strip pid m a events = (none, [(pid, FailReason.failed)]) := by
  cases events with
  | nil => rfl
  | cons e rest => simp [fetch_loop, h]

/-- A retryable attempt outcome (429 or timeout) within the budget
just advances the attempt counter. -/
theorem fetch_loop_retry_cons (strip : String → String) (pid : String) (m a : Nat)
    (e : AttemptEvent) (rest : List AttemptEvent)
    (he : retryable e = true) (ha : a ≤ m) :
    fetch_loop strip pid m a (e :: rest) = fetch_loop strip pid m (a + 1) rest := by
  cases e with
  | timeout => simp [fetch_loop, Nat.not_lt.mpr ha]
  | exc => simp [retryable] at he
  | response status body =>
    have hs : status = 429 := by simpa [retryable] using he
    subst hs
    simp [fetch_loop, Nat.not_lt.mpr ha]

/-- A prefix of retryable outcomes within the budget is consumed,
advancing the attempt counter by its length. -/
theorem fetch_loop_retry_seg (strip : String → String) (pid : String) (m : Nat)
    (pre : List AttemptEvent) :
    ∀ (a : Nat) (rest : List AttemptEvent), (∀ e ∈ pre, retryable e = true) →
      a + pre.length ≤ m + 1 →
      fetch_loop strip pid m a (pre ++ rest) = fetch_loop strip pid m (a + pre.length) rest := by
  induction pre with
  | nil => intro a rest _ _; simp
  | cons e pre ih =>
    intro a rest hall hlen
    have he : retryable e = true := hall e (by simp)
    have ha : a ≤ m := by simp only [List.length_cons] at hlen; omega
    rw [List.cons_append,
      fetch_loop_retry_cons strip pid m a e (pre ++ rest) he ha,
      ih (a + 1) rest (fun x hx => hall x (by simp [hx]))
        (by simp only [List.length_cons] at hlen; omega)]
    have harith : a + 1 + pre.length = a + (e :: pre).length := by
      simp only [List.length_cons]; omega
    rw [harith]

/-- Every run of the retry loop ends in one of the two shapes fetched
results take: a success with no failure record, or `None` with exactly
one failure record carrying the requested id. -/
theorem fetch_loop_shapes (strip : String → String) (pid : String) (m : Nat)
    (events : List AttemptEvent) :
    ∀ a : Nat, (∃ r, fetch_loop strip pid m a events = (some r, [])) ∨
      (∃ reason, fetch_loop strip pid m a events = (none, [(pid, reason)])) := by
  induction events with
  | nil => intro a; exact Or.inr ⟨FailReason.failed, rfl⟩
  | cons e rest ih =>
    intro a
    by_cases hm : m < a
    · exact Or.inr ⟨FailReason.failed, fetch_loop_past strip pid m a _ hm⟩
    · cases e with
      | timeout => simpa [fetch_loop, hm] using ih (a + 1)
      | exc => exact Or.inr ⟨FailReason.exception, by simp [fetch_loop, hm]⟩
      | response status body =>
        by_cases h429 : status = 429
        · subst h429; simpa [fetch_loop, hm] using ih (a + 1)
        · by_cases h404 : status = 404
          · subst h404
            exact Or.inr ⟨FailReason.httpStatus 404, by simp [fetch_loop, hm]⟩
          · by_cases h200 : status = 200
            · subst h200
              exact Or.inl ⟨mkRecord strip body, by simp [fetch_loop, hm]⟩
            · exact Or.inr ⟨FailReason.httpStatus status,
                by simp [fetch_loop, hm, h429, h404, h200]⟩

/-- The all-`none` JSON body, used for concrete test inputs. -/
def emptyBody : ProductBody := ProductBody.mk none none none none none none

/-- C1 (counterexample): exhausting the attempts with three 429s and
exhausting them with three timeouts produce the *same* failure record
`(pid, "Failed")` — the code has no `rate_limited_exhausted` /
`timeout_exhausted` distinction; both exhaustion paths fall through to
line 96 (`failed_ids.append((pid, "Failed"))`). -/
theorem c1_counterexample :
    (fetch_product (fun s => s) "1" MAX_RETRIES
        [AttemptEvent.response 429 emptyBody, AttemptEvent.response 429 emptyBody,
         AttemptEvent.response 429 emptyBody]).2
      = (fetch_product (fun s => s) "1" MAX_RETRIES
        [AttemptEvent.timeout, AttemptEvent.timeout, AttemptEvent.timeout]).2
    ∧ (fetch_product (fun s => s) "1" MAX_RETRIES
        [AttemptEvent.response 429 emptyBody, AttemptEvent.response 429 emptyBody,
         AttemptEvent.response 429 emptyBody]).2
      = [("1", FailReason.failed)] := by
  constructor <;> rfl

/-- C1 (amended): whenever the attempts are exhausted by retryable
outcomes (429s, timeouts, or any mix of them), `fetch_product` returns
the terminal value `None` having appended the single generic failure
record `(pid, "Failed")`; the code does not distinguish rate-limit
exhaustion from timeout exhaustion. -/
theorem c1_exhaustion_generic (strip : String → String) (pid : String) (m : Nat)
    (events : List AttemptEvent)
    (hall : ∀ e ∈ events, retryable e = true) (hlen : m ≤ events.length) :
    fetch_product strip pid m events = (none, [(pid, FailReason.failed)]) := by
  unfold fetch_product
  conv_lhs => rw [← List.take_append_drop m events]
  rw [fetch_loop_retry_seg strip pid m (events.take m) 1 (events.drop m)
      (fun e he => hall e (List.take_subset m events he))
      (by simp [List.length_take]; omega)]
  exact fetch_loop_past strip pid m _ _ (by simp [List.length_take]; omega)

/-- C1 (witness for the amended theorem). -/
theorem c1_exhaustion_generic_witness :
    fetch_product (fun s => s) "7" 3
        [AttemptEvent.timeout, AttemptEvent.response 429 emptyBody, AttemptEvent.timeout]
      = (none, [("7", FailReason.failed)]) :=
  c1_exhaustion_generic (fun s => s) "7" 3
    [AttemptEvent.timeout, AttemptEvent.response 429 emptyBody, AttemptEvent.timeout]
    (by decide) (by decide)

/-- C4: an HTTP 404 on any attempt within the budget — after any
prefix of retryable outcomes — is terminal: `fetch_product` returns
`None` with exactly the failure record `(pid, 404)`, independently of
whatever outcomes would have followed (`post`) and of the value of
`MAX_RETRIES` (here an arbitrary `m`). -/
theorem c4_not_found_terminal (strip : String → String) (m : Nat) (pid : String)
    (pre post : List AttemptEvent) (body : ProductBody)
    (hpre : ∀ e ∈ pre, retryable e = true) (hlen : pre.length < m) :
    fetch_product strip pid m (pre ++ AttemptEvent.response 404 body :: post)
      = (none, [(pid, FailReason.httpStatus 404)]) := by
  unfold fetch_product
  rw [fetch_loop_retry_seg strip pid m pre 1 _ hpre (by omega)]
  have h : ¬ m < 1 + pre.length := by omega
  simp [fetch_loop, h]

/-- C4 (witness). -/
theorem c4_not_found_terminal_witness :
    fetch_product (fun s => s) "9" 3
        [AttemptEvent.timeout, AttemptEvent.response 404 emptyBody,
         AttemptEvent.response 200 emptyBody]
      = (none, [("9", FailReason.httpStatus 404)]) :=
  c4_not_found_terminal (fun s => s) 3 "9" [AttemptEvent.timeout]
    [AttemptEvent.response 200 emptyBody] emptyBody (by decide) (by decide)

/-- C5: any HTTP status outside `{200, 404, 429}` on any attempt
within the budget is terminal with the failure record
`(pid, status)`, regardless of the remaining attempts (`post`) — no
part of the retry budget is consumed by such a status. -/
theorem c5_other_status_terminal (strip : String → String) (m : Nat) (pid : String)
    (pre post : List AttemptEvent) (body : ProductBody) (code : Nat)
    (hpre : ∀ e ∈ pre, retryable e = true) (hlen : pre.length < m)
    (h200 : code ≠ 200) (h404 : code ≠ 404) (h429 : code ≠ 429) :
    fetch_product strip pid m (pre ++ AttemptEvent.response code body :: post)
      = (none, [(pid, FailReason.httpStatus code)]) := by
  unfold fetch_product
  rw [fetch_loop_retry_seg strip pid m pre 1 _ hpre (by omega)]
  have h : ¬ m < 1 + pre.length := by omega
  simp [fetch_loop, h, h200, h404, h429]

/-- C5 (witness). -/
theorem c5_other_status_terminal_witness :
    fetch_product (fun s => s) "2" 3
        [AttemptEvent.timeout, AttemptEvent.response 500 emptyBody,
         AttemptEvent.response 200 emptyBody]
      = (none, [("2", FailReason.httpStatus 500)]) :=
  c5_other_status_terminal (fun s => s) 3 "2" [AttemptEvent.timeout]
    [AttemptEvent.response 200 emptyBody] emptyBody 500
    (by decide) (by decide) (by decide) (by decide) (by decide)

/-- C8: fetch never escalates a fault — it always yields a terminal
outcome, and permanent failures become exactly one failure record
carrying the requested id; consequently in a batch every id
contributes exactly one outcome (success or failure), so no
identifier-level failure loses or aborts the rest of the batch. -/
theorem c8_failures_as_data :
    (∀ (strip : String → String) (pid : String) (m : Nat) (events : List AttemptEvent),
      (∃ r, fetch_product strip pid m events = (some r, [])) ∨
      (∃ reason, fetch_product strip pid m events = (none, [(pid, reason)]))) ∧
    (∀ (strip : String → String) (env : String → List AttemptEvent) (m : Nat)
      (ids : List String),
      (process_batch strip env m ids).1.length + (process_batch strip env m ids).2.length
        = ids.length) := by
  constructor
  · intro strip pid m events
    exact fetch_loop_shapes strip pid m events 1
  · intro strip env m ids
    induction ids with
    | nil => rfl
    | cons pid rest ih =>
      rcases fetch_loop_shapes strip pid m (env pid) 1 with ⟨r, hr⟩ | ⟨reason, hr⟩
      · simp [process_batch, fetch_product] at hr ⊢
        rw [hr]
        simp [ih]
        omega
      · simp [process_batch, fetch_product] at hr ⊢
        rw [hr]
        simp [ih]
        omega

/-- C9 (counterexample): a 200 response whose body has `id = 999` and
no other field, requested for identifier `"123"`, yields a success
record whose `description` is the *empty string* (the source computes
`strip(data.get("description", ""))`, never `None`), while the other
missing fields are `None`; the stored id `999` comes from the body,
not from the requested `"123"`. -/
theorem c9_counterexample :
    fetch_product (fun s => s) "123" MAX_RETRIES
        [AttemptEvent.response 200 (ProductBody.mk (some 999) none none none none none)]
      = (some (ProductRecord.mk (some 999) none none none "" none), []) := by
  rfl

/-- C9 (amended): a 200 response within the budget yields a success
record built field-by-field from the response body — `None` where the
body lacks `id`, `name`, `url_key`, `price` or `thumbnail_url`, the
markup-strip of `data.get("description", "")` (hence `strip ""`, not
null, when `description` is missing) — and the stored id is the body's
id, not the requested identifier. -/
theorem c9_success_fields (strip : String → String) (pid : String) (m : Nat)
    (body : ProductBody) (post : List AttemptEvent) (hm : 1 ≤ m) :
    fetch_product strip pid m (AttemptEvent.response 200 body :: post)
      = (some (ProductRecord.mk body.id body.name body.url_key body.price
          (strip (body.description.getD "")) body.thumbnail_url), []) := by
  have h : ¬ m < 1 := by omega
  simp [fetch_product, fetch_loop, h, mkRecord]

/-- C9 (witness for the amended theorem). -/
theorem c9_success_fields_witness :
    fetch_product (fun _ => "text") "55" 3
        [AttemptEvent.response 200
          (ProductBody.mk (some 8) (some "n") none (some 12) (some "<b>x</b>") (some "u"))]
      = (some (ProductRecord.mk (some 8) (some "n") none (some 12) "text" (some "u")), []) :=
  c9_success_fields (fun _ => "text") "55" 3
    (ProductBody.mk (some 8) (some "n") none (some 12) (some "<b>x</b>") (some "u"))
    [] (by decide)

/-! ## Checkpoint resolver lemmas -/

/-- `foldl max` never drops below its accumulator. -/
theorem le_foldl_max_acc : ∀ (l : List Nat) (a : Nat), a ≤ l.foldl max a := by
  intro l
  induction l with
  | nil => intro a; exact Nat.le_refl a
  | cons x xs ih =>
    intro a
    calc a ≤ max a x := Nat.le_max_left a x
    _ ≤ (x :: xs).foldl max a := ih (max a x)

/-- Every element of the list is bounded by its `foldl max`. -/
theorem mem_le_foldl_max : ∀ (l : List Nat) (a x : Nat), x ∈ l → x ≤ l.foldl max a := by
  intro l
  induction l with
  | nil => intro a x hx; cases hx
  | cons y ys ih =>
    intro a x hx
    rcases List.mem_cons.mp hx with rfl | hx
    · calc x ≤ max a x := Nat.le_max_right a x
      _ ≤ (x :: ys).foldl max a := le_foldl_max_acc ys (max a x) -- foldl over cons
    · exact ih (max a y) x hx

/-- The maximum of the contiguous indices `1..k` is `k`. -/
theorem foldl_max_range' : ∀ k : Nat, (List.range' 1 (k + 1)).foldl max 0 = k + 1 := by
  intro k
  induction k with
  | zero => rfl
  | succ n ih =>
    rw [List.range'_concat, List.foldl_append, ih]
    show max (n + 1) (1 + 1 * (n + 1)) = n + 1 + 1
    rw [Nat.max_eq_right (by omega)]
    omega

/-- C3: resume correctness.  If the persisted artifacts are exactly
`tiki_batch_1.json .. tiki_batch_k.json` (indices `1..k`, modelled as
`List.range' 1 k`; `k = 0` is the no-artifact case), the run computes
`start_batch = k + 1` — in particular `1` when no artifacts exist —
and iterates exactly over the batch indices `i` with
`k + 1 ≤ i ≤ total_batches`: none of `1..k` is reprocessed and no
batch up to `total_batches` is skipped. -/
theorem c3_resume_correct (k total : Nat) :
    start_batch (List.range' 1 k) = k + 1 ∧
    (∀ i, i ∈ processed_batches (k + 1) total ↔ k + 1 ≤ i ∧ i ≤ total) := by
  constructor
  · cases k with
    | zero => rfl
    | succ n =>
      have hne : (List.range' 1 (n + 1)).isEmpty = false := by
        rw [List.range'_succ]; rfl
      simp [start_batch, hne, foldl_max_range' n]
  · intro i
    simp only [processed_batches, List.mem_range'_1]
    omega

/-- C10: non-contiguous artifacts.  With artifacts for indices
`{1, 3}` only, the run starts at `4 = max + 1`: batch `2` is not in
the processed range for any total, and since any later run still sees
index `3` among the artifacts, its start index is again at least `4` —
batch `2` is permanently skipped. -/
theorem c10_gap_skipped :
    start_batch [1, 3] = 4 ∧
    (∀ total, 2 ∉ processed_batches (start_batch [1, 3]) total) ∧
    (∀ done : List Nat, 3 ∈ done → 4 ≤ start_batch done) := by
  refine ⟨rfl, ?_, ?_⟩
  · intro total hmem
    have h := (List.mem_range'_1.mp hmem).1
    have h4 : start_batch [1, 3] = 4 := rfl
    omega
  · intro done h3
    have hne : done.isEmpty = false := by
      cases done with
      | nil => cases h3
      | cons x xs => rfl
    have hle : 3 ≤ done.foldl max 0 := mem_le_foldl_max done 0 3 h3
    simp only [start_batch, hne, Bool.false_eq_true, if_false]
    omega

/-- C10 (witness). -/
theorem c10_gap_skipped_witness : 4 ≤ start_batch [1, 3] :=
  c10_gap_skipped.2.2 [1, 3] (by decide)

/-! ## Failure sink lemmas -/

/-- Data rows contribute no header. -/
theorem header_count_data_rows (records : List FailureRecord) :
    header_count (records.map (fun r => CsvRow.data r.1 r.2)) = 0 := by
  induction records with
  | nil => rfl
  | cons x xs ih => simp [header_count, List.countP_cons, ih]

/-- A flush only ever appends rows to the existing file. -/
theorem flush_failed_appends (f : List CsvRow) (r : List FailureRecord) :
    ∃ t, flush_failed f r = f ++ t := by
  by_cases h : r.isEmpty
  · exact ⟨[], by simp [flush_failed, h]⟩
  · exact ⟨(if f.isEmpty then [CsvRow.header] else [])
        ++ r.map (fun x => CsvRow.data x.1 x.2),
      by simp [flush_failed, h]⟩

/-- Any sequence of flushes only ever appends rows. -/
theorem flush_all_appends (batches : List (List FailureRecord)) :
    ∀ f : List CsvRow, ∃ t, flush_all f batches = f ++ t := by
  induction batches with
  | nil => intro f; exact ⟨[], by simp [flush_all]⟩
  | cons b bs ih =>
    intro f
    obtain ⟨t1, ht1⟩ := flush_failed_appends f b
    obtain ⟨t2, ht2⟩ := ih (flush_failed f b)
    refine ⟨t1 ++ t2, ?_⟩
    show flush_all (flush_failed f b) bs = f ++ (t1 ++ t2)
    rw [ht2, ht1, List.append_assoc]

/-- One flush preserves the invariant "the file is empty or holds
exactly one header row". -/
theorem flush_failed_header_inv (f : List CsvRow) (r : List FailureRecord)
    (h : f = [] ∨ header_count f = 1) :
    flush_failed f r = [] ∨ header_count (flush_failed f r) = 1 := by
  by_cases hr : r.isEmpty
  · simpa [flush_failed, hr] using h
  · right
    have hd := header_count_data_rows r
    rcases h with rfl | h1
    · have hflush : flush_failed [] r
          = [CsvRow.header] ++ r.map (fun x => CsvRow.data x.1 x.2) := by
        simp [flush_failed, hr]
      rw [hflush]
      simp only [header_count, List.countP_append] at hd ⊢
      rw [hd]
      rfl
    · have hne : f.isEmpty = false := by
        cases f with
        | nil => simp [header_count] at h1
        | cons x xs => rfl
      have hflush : flush_failed f r = f ++ r.map (fun x => CsvRow.data x.1 x.2) := by
        simp [flush_failed, hr, hne]
      rw [hflush]
      simp only [header_count, List.countP_append] at hd h1 ⊢
      omega

/-- Any sequence of flushes preserves the invariant. -/
theorem flush_all_header_inv (batches : List (List FailureRecord)) :
    ∀ f : List CsvRow, f = [] ∨ header_count f = 1 →
      flush_all f batches = [] ∨ header_count (flush_all f batches) = 1 := by
  induction batches with
  | nil => intro f h; simpa [flush_all] using h
  | cons b bs ih =>
    intro f h
    exact ih (flush_failed f b) (flush_failed_header_inv f b h)

/-- C6: failure-log header invariant.  Starting from a fresh
(nonexistent or empty) failure file, or from a pre-existing file that
already holds its single header row, any sequence of flushes — within
one run or across restarts — (a) only appends rows, never rewriting
existing content, (b) leaves a non-empty file with the header row
appearing exactly once, and (c) a flush onto a non-empty file adds no
header at all. -/
theorem c6_header_once (file : List CsvRow) (batches : List (List FailureRecord))
    (hfile : file = [] ∨ header_count file = 1) :
    (∃ t, flush_all file batches = file ++ t) ∧
    (flush_all file batches ≠ [] → header_count (flush_all file batches) = 1) ∧
    (∀ (f : List CsvRow) (r : List FailureRecord), f ≠ [] →
      header_count (flush_failed f r) = header_count f) := by
  refine ⟨flush_all_appends batches file, ?_, ?_⟩
  · intro hne
    rcases flush_all_header_inv batches file hfile with h | h
    · exact absurd h hne
    · exact h
  · intro f r hf
    by_cases hr : r.isEmpty
    · simp [flush_failed, hr]
    · have hne : f.isEmpty = false := by
        cases f with
        | nil => exact absurd rfl hf
        | cons x xs => rfl
      have hd := header_count_data_rows r
      simp only [header_count, List.countP_append] at hd ⊢
      simp [flush_failed, hr, hne, List.countP_append, hd]

/-- C6 (witness): two flushes onto a fresh file produce exactly one
header row. -/
theorem c6_header_once_witness :
    header_count (flush_all []
        [[("1", FailReason.httpStatus 404)], [("2", FailReason.failed)]]) = 1 :=
  (c6_header_once [] [[("1", FailReason.httpStatus 404)], [("2", FailReason.failed)]]
    (Or.inl rfl)).2.1 (by decide)

/-! ## Trace lemmas: slot holding around backoff sleeps -/

/-- For every environment and attempt counter, the trace of the retry
loop is well bracketed (acquire/release strictly alternate, starting
and ending not held) and every backoff sleep occurs while the slot is
held. -/
theorem fetch_trace_backoff_held (m : Nat) (events : List AttemptEvent) :
    ∀ a : Nat, well_bracketed false (fetch_trace m a events) = true ∧
      all_backoff_held false (fetch_trace m a events) = true := by
  induction events with
  | nil => intro a; exact ⟨rfl, rfl⟩
  | cons e rest ih =>
    intro a
    by_cases hm : m < a
    · constructor <;> simp [fetch_trace, hm, well_bracketed, all_backoff_held]
    · cases e with
      | timeout =>
        obtain ⟨h1, h2⟩ := ih (a + 1)
        constructor
        · simpa [fetch_trace, hm, well_bracketed, all_backoff_held] using h1
        · simpa [fetch_trace, hm, well_bracketed, all_backoff_held] using h2
      | exc =>
        constructor <;> simp [fetch_trace, hm, well_bracketed, all_backoff_held]
      | response status body =>
        by_cases h429 : status = 429
        · subst h429
          obtain ⟨h1, h2⟩ := ih (a + 1)
          constructor
          · simpa [fetch_trace, hm, well_bracketed, all_backoff_held] using h1
          · simpa [fetch_trace, hm, well_bracketed, all_backoff_held] using h2
        · constructor <;>
            simp [fetch_trace, hm, h429, well_bracketed, all_backoff_held]

/-- C2 (counterexample): on a 429 response (and likewise on a
timeout), the backoff sleep happens *while the semaphore slot is
held*: the sleeps at source lines 60 and 89 are inside the
`async with semaphore:` block, so the slot is not released before the
backoff. -/
theorem c2_counterexample :
    backoff_while_held false
        (fetch_trace MAX_RETRIES 1 [AttemptEvent.response 429 emptyBody]) = true
    ∧ backoff_while_held false
        (fetch_trace MAX_RETRIES 1 [AttemptEvent.timeout]) = true := by
  constructor <;> rfl

/-- C2 (amended): the slot is held for the whole attempt body —
politeness sleep, request, classification, *and* the 429/timeout
backoff sleep — and is released at the end of each attempt, before the
next attempt's acquire: the trace is well bracketed and every backoff
sleep occurs inside a held region. -/
theorem c2_slot_held_through_backoff (m : Nat) (events : List AttemptEvent) :
    well_bracketed false (fetch_trace m 1 events) = true ∧
    all_backoff_held false (fetch_trace m 1 events) = true :=
  fetch_trace_backoff_held m events 1

/-! ## Concurrency limiter lemmas -/

/-- The semaphore invariant: available slots plus held slots equals
the capacity. -/
def SemInv (n : Nat) (s : SemState) : Prop :=
  s.sem + busy_count s.tasks = n

/-- The initial state satisfies the invariant. -/
theorem semInv_init (n k : Nat) : SemInv n (initState n k) := by
  simp [SemInv, initState, busy_count, List.countP_replicate, busy]

/-- Every step preserves the invariant. -/
theorem semInv_step {n : Nat} {s s' : SemState} (hstep : SemStep s s')
    (hinv : SemInv n s) : SemInv n s' := by
  have hinv' : s.sem + List.countP busy s.tasks = n := hinv
  cases hstep with
  | acquire i h hs =>
    obtain ⟨hlt, hget⟩ := List.get?_eq_some.mp h
    have hidx : s.tasks[i] = Phase.ready := by
      simpa using hget
    have hcount := List.countP_set busy s.tasks i Phase.holding hlt
    rw [hidx] at hcount
    have hcount' : List.countP busy (s.tasks.set i Phase.holding)
        = List.countP busy s.tasks + 1 := by rw [hcount]; rfl
    show s.sem - 1 + List.countP busy (s.tasks.set i Phase.holding) = n
    rw [hcount']
    omega
  | startReq i h =>
    obtain ⟨hlt, hget⟩ := List.get?_eq_some.mp h
    have hidx : s.tasks[i] = Phase.holding := by
      simpa using hget
    have hpos : 0 < s.tasks.countP busy :=
      List.countP_pos_iff.mpr ⟨s.tasks[i], s.tasks.getElem_mem hlt, by rw [hidx]; rfl⟩
    have hcount := List.countP_set busy s.tasks i Phase.requesting hlt
    rw [hidx] at hcount
    have hcount' : List.countP busy (s.tasks.set i Phase.requesting)
        = List.countP busy s.tasks - 1 + 1 := by rw [hcount]; rfl
    show s.sem + List.countP busy (s.tasks.set i Phase.requesting) = n
    rw [hcount']
    omega
  | endReq i h =>
    obtain ⟨hlt, hget⟩ := List.get?_eq_some.mp h
    have hidx : s.tasks[i] = Phase.requesting := by
      simpa using hget
    have hpos : 0 < s.tasks.countP busy :=
      List.countP_pos_iff.mpr ⟨s.tasks[i], s.tasks.getElem_mem hlt, by rw [hidx]; rfl⟩
    have hcount := List.countP_set busy s.tasks i Phase.holding hlt
    rw [hidx] at hcount
    have hcount' : List.countP busy (s.tasks.set i Phase.holding)
        = List.countP busy s.tasks - 1 + 1 := by rw [hcount]; rfl
    show s.sem + List.countP busy (s.tasks.set i Phase.holding) = n
    rw [hcount']
    omega
  | release i h =>
    obtain ⟨hlt, hget⟩ := List.get?_eq_some.mp h
    have hidx : s.tasks[i] = Phase.holding := by
      simpa using hget
    have hpos : 0 < s.tasks.countP busy :=
      List.countP_pos_iff.mpr ⟨s.tasks[i], s.tasks.getElem_mem hlt, by rw [hidx]; rfl⟩
    have hcount := List.countP_set busy s.tasks i Phase.ready hlt
    rw [hidx] at hcount
    have hcount' : List.countP busy (s.tasks.set i Phase.ready)
        = List.countP busy s.tasks - 1 := by rw [hcount]; rfl
    show s.sem + 1 + List.countP busy (s.tasks.set i Phase.ready) = n
    rw [hcount']
    omega
  | finish i h =>
    obtain ⟨hlt, hget⟩ := List.get?_eq_some.mp h
    have hidx : s.tasks[i] = Phase.ready := by
      simpa using hget
    have hcount := List.countP_set busy s.tasks i Phase.finished hlt
    rw [hidx] at hcount
    have hcount' : List.countP busy (s.tasks.set i Phase.finished)
        = List.countP busy s.tasks := by rw [hcount]; rfl
    show s.sem + List.countP busy (s.tasks.set i Phase.finished) = n
    rw [hcount']
    omega

/-- The invariant holds in every reachable state. -/
theorem semInv_reachable {n k : Nat} {s : SemState} (h : Reachable n k s) :
    SemInv n s := by
  induction h with
  | refl => exact semInv_init n k
  | tail _hsteps hstep ih => exact semInv_step hstep ih

/-- C7: concurrency bound.  In every state reachable from the start
of the run — any number `k` of dispatched fetch tasks interleaving
acquire / request / release steps against
`asyncio.BoundedSemaphore(MAX_CONCURRENCY)` — the number of tasks
concurrently executing their network request never exceeds
`MAX_CONCURRENCY`. -/
theorem c7_concurrency_bound (k : Nat) (s : SemState)
    (h : Reachable MAX_CONCURRENCY k s) :
    requesting_count s.tasks ≤ MAX_CONCURRENCY := by
  have hinv := semInv_reachable h
  have hmono : requesting_count s.tasks ≤ busy_count s.tasks := by
    refine List.countP_mono_left ?_
    intro ph _ hp
    cases ph <;> simp_all [busy]
  simp only [SemInv] at hinv
  omega

/-- C7 (witness): a concrete reachable state — five tasks, one of
which has acquired a slot and entered its request — satisfies the
bound. -/
theorem c7_concurrency_bound_witness :
    requesting_count ((initState MAX_CONCURRENCY 5).tasks.set 0 Phase.holding)
      ≤ MAX_CONCURRENCY :=
  c7_concurrency_bound 5
    ⟨MAX_CONCURRENCY - 1, (initState MAX_CONCURRENCY 5).tasks.set 0 Phase.holding⟩
    (Relation.ReflTransGen.tail Relation.ReflTransGen.refl
      (SemStep.acquire (initState MAX_CONCURRENCY 5) 0 (by decide) (by decide)))

end TikiCrawl
